import Mathlib

/-!
Shallow embedding of the bazaar_ai core data classes
(`src/bazaar_ai/trader.py`: `Trader`, `Hand`, `Satchel`) together with the
parts of the goods/terms/actions catalog that the excerpted module imports.
The catalog and action-generator modules are not part of the excerpt, so
those definitions are modelled from the specification and marked as such.
Python's mutating methods are embedded as state-passing functions, and
methods that raise exceptions return `Except PyErr`.
-/

/-- Modelled from the spec: the goods catalog (`terms.GoodTypes`, not in the
excerpt). A static enumeration of tradable good types, exactly one of which
(CAMEL) is the distinguished bulk type exempt from the hand-size cap; the
member names follow the reference game. Each member exposes its `name`. -/
inductive GoodTypes where
  | DIAMOND
  | GOLD
  | SILVER
  | CLOTH
  | SPICE
  | LEATHER
  | CAMEL
  deriving DecidableEq, Repr, Fintype

/-- Embeds the Python enum member attribute `GoodTypes.<member>.name`. -/
def GoodTypes.name : GoodTypes → String
  | .DIAMOND => "DIAMOND"
  | .GOLD => "GOLD"
  | .SILVER => "SILVER"
  | .CLOTH => "CLOTH"
  | .SPICE => "SPICE"
  | .LEATHER => "LEATHER"
  | .CAMEL => "CAMEL"

/-- Enumeration of the good types in declaration order (iteration order of the
Python enum `GoodTypes`). -/
def GoodTypes.all : List GoodTypes :=
  [.DIAMOND, .GOLD, .SILVER, .CLOTH, .SPICE, .LEATHER, .CAMEL]

/-- Modelled from the spec: the bonus tiers (`terms.BonusTypes`, not in the
excerpt): an ordered set of three thresholds keyed by minimum sale count. -/
inductive BonusTypes where
  | THREE
  | FOUR
  | FIVE
  deriving DecidableEq, Repr, Fintype

/-- Insertion order of the bonus-coin buckets created by `Satchel.__init__`,
which is the iteration order of `self._bonus_coins.values()`. -/
def BonusTypes.all : List BonusTypes := [.THREE, .FOUR, .FIVE]

/-- Modelled from the spec: a good instance held in a Hand or the Market
(`goods` module, not in the excerpt). The excerpted code reads only its
`good_type` attribute, and the spec describes a Hand as a multiset of
GoodType instances. -/
structure Good where
  good_type : GoodTypes
  deriving DecidableEq, Repr

/-- Modelled from the spec: a payout coin, an immutable (value, originating
category) pair owned by exactly one Satchel once drawn. -/
structure Coin where
  good_type : GoodTypes
  value : Nat
  deriving DecidableEq, Repr

/-- Modelled from the spec: a bonus coin, drawn from a bonus tier's payout
stack on a qualifying sale. Bonus coins award points, so their values are
positive, as presupposed by the spec's scoring property that the interim and
final scores agree exactly when no bonus coins are held. -/
structure BonusCoin where
  bonus_type : BonusTypes
  value : Nat
  value_pos : 0 < value

/-- Python exception classes raised by the embedded methods. -/
inductive PyErr where
  | attributeError
  | typeError
  | nameError
  deriving DecidableEq, Repr

/-- Comparison used by `sorted(goods, key=lambda good: good.good_type.name)`:
Python compares the string keys lexicographically by character, which is the
lexicographic order on the names' character lists (see
`goodLE_iff_name_le`, which identifies it with Mathlib's `String` order). -/
def goodLE (a b : Good) : Prop :=
  a.good_type.name.data ≤ b.good_type.name.data

instance : DecidableRel goodLE :=
  fun a b => inferInstanceAs (Decidable (a.good_type.name.data ≤ b.good_type.name.data))

theorem goodLE_iff_name_le (a b : Good) :
    goodLE a b ↔ a.good_type.name ≤ b.good_type.name := by
  rw [goodLE, String.le_iff_toList_le]
  rfl

instance : IsTrans Good goodLE :=
  ⟨fun _ _ _ hab hbc => le_trans hab hbc⟩

instance : IsTotal Good goodLE :=
  ⟨fun a b => le_total a.good_type.name.data b.good_type.name.data⟩

/-- Distinct good types have distinct names, so the sort key is injective. -/
theorem GoodTypes.name_data_inj :
    ∀ a b : GoodTypes, a.name.data = b.name.data → a = b := by decide

instance : IsAntisymm Good goodLE :=
  ⟨fun a b hab hba => by
    cases a with
    | mk ta =>
      cases b with
      | mk tb =>
        have hn : ta.name.data = tb.name.data := le_antisymm hab hba
        rw [GoodTypes.name_data_inj ta tb hn]⟩

/-- Embeds the state of a `Hand`: the list of goods it holds. -/
structure Hand where
  goods : List Good
  deriving DecidableEq, Repr

/-- Embeds `sorted(goods, key=lambda good: good.good_type.name)` /
`self.goods.sort(key=lambda good: good.good_type.name)`. -/
def sortGoods (l : List Good) : List Good :=
  List.insertionSort goodLE l

/-- Embeds `Hand.__init__`: stores the given goods sorted by good type name. -/
def Hand.init (goods : List Good) : Hand :=
  ⟨sortGoods goods⟩

/-- Embeds `Hand.append`: appends the good, then re-sorts by good type name. -/
def Hand.append (h : Hand) (good : Good) : Hand :=
  ⟨sortGoods (h.goods ++ [good])⟩

/-- Embeds `Hand.remove`: `list.remove` deletes the first occurrence of an
equal good (Python raises ValueError when none exists; the claims only remove
goods that are present), then re-sorts by good type name. -/
def Hand.remove (h : Hand) (good : Good) : Hand :=
  ⟨sortGoods (h.goods.erase good)⟩

/-- Embeds `Hand.count_goods`: counts the goods, skipping camels unless
`include_all` is set (the Python default is `include_all=False`). -/
def Hand.count_goods (h : Hand) (include_all : Bool) : Nat :=
  h.goods.foldl
    (fun count good =>
      if include_all || good.good_type != GoodTypes.CAMEL then count + 1 else count)
    0

/-- Embeds `Hand.__repr__`. Its first statement evaluates
`self.goods_reserve_count`, an attribute that `Hand.__init__` never defines
(nor does any other Hand method; the later `self.coin_stacks[good_type]` is
equally undefined), so every call raises AttributeError before any part of
the string is produced. -/
def Hand.reprE (_ : Hand) : Except PyErr String :=
  .error .attributeError

/-- Embeds `Hand.__eq__` on two Hands: it compares `repr(self)` with
`repr(other)`, propagating any exception the reprs raise. -/
def Hand.eq (a b : Hand) : Except PyErr Bool := do
  let ra ← a.reprE
  let rb ← b.reprE
  return ra == rb

/-- Embeds the state of a `Satchel`: the payout coins collected so far and the
bonus-coin buckets, a mapping from each of the three bonus types to the list
of bonus coins of that type (`Satchel.__init__` creates all three buckets
empty, in the order THREE, FOUR, FIVE). -/
structure Satchel where
  coins : List Coin
  bonus_coins : BonusTypes → List BonusCoin

/-- Embeds `Satchel.__init__`: no coins and three empty bonus buckets. -/
def Satchel.init : Satchel :=
  ⟨[], fun _ => []⟩

/-- Embeds `Satchel.get_bonus_coin_count`: the length of the bucket for the
given bonus type. -/
def Satchel.get_bonus_coin_count (s : Satchel) (bonus_type : BonusTypes) : Nat :=
  (s.bonus_coins bonus_type).length

/-- Embeds `Satchel.add_coin`: appends the coin to `self._coins`. -/
def Satchel.add_coin (s : Satchel) (coin : Coin) : Satchel :=
  { s with coins := s.coins ++ [coin] }

/-- Embeds `Satchel.add_bonus_coin`: appends the bonus coin to the bucket
`self._bonus_coins[bonus_coin.bonus_type]`. -/
def Satchel.add_bonus_coin (s : Satchel) (bonus_coin : BonusCoin) : Satchel :=
  { s with
    bonus_coins := fun t =>
      if t = bonus_coin.bonus_type then s.bonus_coins t ++ [bonus_coin]
      else s.bonus_coins t }

/-- Embeds `Satchel.calculate_points`: sums the payout coin values, then, when
`include_bonus_coins` is set (the Python default is False), also the values of
every bonus coin in every bucket, iterating the buckets in dict insertion
order THREE, FOUR, FIVE. -/
def Satchel.calculate_points (s : Satchel) (include_bonus_coins : Bool) : Nat :=
  let points := s.coins.foldl (fun points coin => points + coin.value) 0
  if include_bonus_coins then
    BonusTypes.all.foldl
      (fun points t =>
        (s.bonus_coins t).foldl (fun points bc => points + bc.value) points)
      points
  else points

/-- Embeds `Satchel.__repr__`. After `s = ""`, the statement
`s += self.calculate_points()` adds an int to a str, so every call raises
TypeError before any of the string is produced. -/
def Satchel.reprE (_ : Satchel) : Except PyErr String :=
  .error .typeError

/-- Embeds `Satchel.__eq__` on two Satchels: it compares `repr(self)` with
`repr(other)`, propagating any exception the reprs raise. -/
def Satchel.eq (a b : Satchel) : Except PyErr Bool := do
  let ra ← a.reprE
  let rb ← b.reprE
  return ra == rb

/-- Actions the four generator classes of the `actions` module produce
(modelled from the spec, the module is not in the excerpt; the plain name
Action is already taken by the library). -/
inductive GameAction where
  | take (good_type : GoodTypes)
  | trade (offered desired : List Good)
  | sell (good_type : GoodTypes) (count : Nat)
  | herd
  deriving DecidableEq, Repr

/-- Kinds of actions, used to state that the generators partition the legal
actions by kind. -/
inductive ActionKind where
  | take
  | trade
  | sell
  | herd
  deriving DecidableEq, Repr

/-- Maps each action to its kind. -/
def GameAction.kind : GameAction → ActionKind
  | .take _ => .take
  | .trade _ _ => .trade
  | .sell _ _ => .sell
  | .herd => .herd

/-- Modelled from the spec: the market observation handed to the generators
and agents — the goods currently in the shared market pool and the hand-size
limit (the further display fields of the observation play no role in the
generator contracts). -/
structure MarketObservation where
  market_goods : List Good
  max_player_goods_count : Nat
  deriving DecidableEq, Repr

/-- Number of goods of the given type in a list of goods. -/
def countType (l : List Good) (t : GoodTypes) : Nat :=
  (l.filter (fun g => g.good_type == t)).length

/-- Number of standard (non-camel) goods in a list of goods. -/
def countStandard (l : List Good) : Nat :=
  (l.filter (fun g => g.good_type != GoodTypes.CAMEL)).length

/-- Modelled from the spec: `Take.get_all_actions` — one Take action per
distinct standard good type currently present in the market, legal only when
the post-take capped count respects the hand-size limit. -/
def Take.get_all_actions (hand : Hand) (mo : MarketObservation) : List GameAction :=
  if hand.count_goods false + 1 ≤ mo.max_player_goods_count then
    (((mo.market_goods.map (fun g => g.good_type)).dedup).filter
        (fun t => t != GoodTypes.CAMEL)).map GameAction.take
  else []

/-- Modelled from the spec: `Trade.get_all_actions` — one Trade action per
pair of an offered combination of at least two hand goods and an equally
large desired combination of market goods, such that no good type occurs on
both sides, the bulk type is never acquired by trade, and the post-trade
capped count respects the hand-size limit. -/
def Trade.get_all_actions (hand : Hand) (mo : MarketObservation) : List GameAction :=
  hand.goods.sublists.flatMap (fun offered =>
    (mo.market_goods.sublists.filter (fun desired =>
        decide (2 ≤ offered.length) &&
        desired.length == offered.length &&
        desired.all (fun g => g.good_type != GoodTypes.CAMEL) &&
        offered.all (fun g => desired.all (fun d => d.good_type != g.good_type)) &&
        decide (hand.count_goods false - countStandard offered + countStandard desired
          ≤ mo.max_player_goods_count))).map
      (GameAction.trade offered))

/-- Modelled from the spec: `Sell.get_all_actions` — one Sell action per
(standard good type, count) pair with count at least 1 and at most the number
of goods of that type the hand holds. -/
def Sell.get_all_actions (hand : Hand) (_mo : MarketObservation) : List GameAction :=
  (GoodTypes.all.filter (fun t => t != GoodTypes.CAMEL)).flatMap (fun t =>
    (List.range (countType hand.goods t)).map (fun i => GameAction.sell t (i + 1)))

/-- Modelled from the spec: `Herd.get_all_actions` — a single Herd action,
legal exactly when at least one camel is present in the market. -/
def Herd.get_all_actions (_hand : Hand) (mo : MarketObservation) : List GameAction :=
  if mo.market_goods.any (fun g => g.good_type == GoodTypes.CAMEL) then
    [GameAction.herd]
  else []

/-- Embeds `Trader.get_all_actions` (trader.py): starts from the empty list
and concatenates the action lists of the Take, Trade, Sell and Herd
generators, in that order. -/
def Trader.get_all_actions (hand : Hand) (mo : MarketObservation) : List GameAction :=
  [] ++ Take.get_all_actions hand mo ++ Trade.get_all_actions hand mo
    ++ Sell.get_all_actions hand mo ++ Herd.get_all_actions hand mo

/-- Embeds `random.Random.choice(seq)`: returns the element at an index the
generator chooses among the valid indices of the sequence; the generator
draw is abstracted as the natural number `r`, reduced modulo the length.
Python raises IndexError on an empty sequence, embedded as `none`. -/
def Random.choice {α : Type} (r : Nat) (l : List α) : Option α :=
  l[r % l.length]?

/-- Embeds the default `Trader.select_action` body (trader.py): computes
`get_all_actions` and returns `self.rng.choice` of it, with the rng draw
abstracted as `r`. -/
def Trader.select_action (r : Nat) (hand : Hand) (mo : MarketObservation) : Option GameAction :=
  Random.choice r (Trader.get_all_actions hand mo)

/-- Embeds `Hand.__hash__`: `hash(repr(self))`, propagating the exception
raised by `Hand.__repr__`. -/
def Hand.hashE (h : Hand) : Except PyErr UInt64 := do
  let r ← h.reprE
  return hash r

/-- Embeds `Satchel.__hash__`: its body is `hash(repr(s))`, and the name `s`
is not defined in that scope (nor at module level), so every call raises
NameError. -/
def Satchel.hashE (_ : Satchel) : Except PyErr UInt64 :=
  .error .nameError

/-- Helper: folding coin values onto an accumulator sums their values. -/
theorem coins_foldl_eq_sum (l : List Coin) (n : Nat) :
    l.foldl (fun points coin => points + coin.value) n = n + (l.map Coin.value).sum := by
  induction l generalizing n with
  | nil => simp
  | cons c cs ih => simp [List.foldl_cons, ih, Nat.add_assoc]

/-- Helper: folding bonus-coin values onto an accumulator sums their values. -/
theorem bonus_foldl_eq_sum (l : List BonusCoin) (n : Nat) :
    l.foldl (fun points bc => points + bc.value) n = n + (l.map BonusCoin.value).sum := by
  induction l generalizing n with
  | nil => simp
  | cons c cs ih => simp [List.foldl_cons, ih, Nat.add_assoc]

/-- Helper: folding all buckets sums every bucket's bonus-coin values. -/
theorem buckets_foldl_eq_sum (ts : List BonusTypes) (f : BonusTypes → List BonusCoin) (n : Nat) :
    ts.foldl (fun points t => (f t).foldl (fun points bc => points + bc.value) points) n
      = n + (ts.map (fun t => ((f t).map BonusCoin.value).sum)).sum := by
  induction ts generalizing n with
  | nil => simp
  | cons t ts ih =>
    rw [List.foldl_cons, bonus_foldl_eq_sum, ih, List.map_cons, List.sum_cons, Nat.add_assoc]

/-- Helper: closed form of `Satchel.calculate_points`, shared by the scoring
claims. -/
theorem calculate_points_spec (s : Satchel) (b : Bool) :
    s.calculate_points b =
      (s.coins.map Coin.value).sum +
        (if b then
            (BonusTypes.all.map (fun t => ((s.bonus_coins t).map BonusCoin.value).sum)).sum
          else 0) := by
  cases b with
  | false => simp [Satchel.calculate_points, coins_foldl_eq_sum]
  | true => simp [Satchel.calculate_points, coins_foldl_eq_sum, buckets_foldl_eq_sum]

/-- Helper: a list of bonus coins has value sum zero exactly when it is empty,
because every bonus coin has positive value. -/
theorem bonus_values_sum_eq_zero_iff (l : List BonusCoin) :
    (l.map BonusCoin.value).sum = 0 ↔ l = [] := by
  cases l with
  | nil => simp
  | cons bc rest =>
    simp only [List.map_cons, List.sum_cons, Nat.add_eq_zero]
    constructor
    · rintro ⟨h0, _⟩
      exact absurd h0 (Nat.pos_iff_ne_zero.mp bc.value_pos)
    · intro hfalse
      cases hfalse

/-- Helper: a conditional-increment fold counts the elements satisfying the
condition. -/
theorem count_foldl_eq_filter_length (p : Good → Bool) (l : List Good) (n : Nat) :
    l.foldl (fun count good => if p good then count + 1 else count) n
      = n + (l.filter p).length := by
  induction l generalizing n with
  | nil => simp
  | cons g gs ih =>
    cases hp : p g with
    | false => simp [List.foldl_cons, List.filter_cons, hp, ih]
    | true =>
      simp [List.foldl_cons, List.filter_cons, hp, ih]
      omega

/-- C1: two Hands with the same multiset of goods are claimed to compare
equal via `Hand.__eq__` (with agreeing hashes). The code cannot deliver this
for any pair of hands: `Hand.__repr__` reads the undefined attributes
`goods_reserve_count` and `coin_stacks`, so `__eq__` (and `__hash__`) raise
AttributeError instead of returning True; shown here on two hands that each
hold one diamond. -/
theorem hand_eq_raises_attribute_error :
    Hand.eq (Hand.init [⟨GoodTypes.DIAMOND⟩]) (Hand.init [⟨GoodTypes.DIAMOND⟩])
        = Except.error PyErr.attributeError ∧
      Hand.hashE (Hand.init [⟨GoodTypes.DIAMOND⟩]) = Except.error PyErr.attributeError :=
  ⟨rfl, rfl⟩

/-- C2: `Satchel.__eq__` is claimed to decide equality of the canonical
content representation. The code cannot deliver this for any pair of
satchels: `Satchel.__repr__` concatenates a str with an int
(`s += self.calculate_points()`), so `__eq__` raises TypeError instead of
returning a Bool; shown here on two freshly initialized satchels. -/
theorem satchel_eq_raises_type_error :
    Satchel.eq Satchel.init Satchel.init = Except.error PyErr.typeError :=
  rfl

/-- C3: for every Satchel the payout-only score is at most the score with
bonus coins included, with equality exactly when every bonus bucket is
empty. -/
theorem satchel_points_le_and_eq_iff_no_bonus (s : Satchel) :
    s.calculate_points false ≤ s.calculate_points true ∧
      (s.calculate_points false = s.calculate_points true ↔
        ∀ t, s.bonus_coins t = []) := by
  have h0 := calculate_points_spec s false
  have h1 := calculate_points_spec s true
  rw [if_neg (by simp)] at h0
  rw [if_pos rfl] at h1
  constructor
  · rw [h0, h1]
    omega
  · rw [h0, h1]
    constructor
    · intro heq
      have hz : (BonusTypes.all.map
          (fun t => ((s.bonus_coins t).map BonusCoin.value).sum)).sum = 0 := by
        omega
      have hall := List.sum_eq_zero_iff.mp hz
      intro t
      have ht : t ∈ BonusTypes.all := by
        cases t <;> simp [BonusTypes.all]
      exact (bonus_values_sum_eq_zero_iff _).mp
        (hall _ (List.mem_map_of_mem _ ht))
    · intro hall
      simp [BonusTypes.all, hall]

/-- C4: for every Satchel, `calculate_points` is the sum of the payout-coin
values plus, exactly when `include_bonus_coins` is True, the sum of the
bonus-coin values across every bonus type. -/
theorem satchel_calculate_points_correct (s : Satchel) (b : Bool) :
    s.calculate_points b =
      (s.coins.map Coin.value).sum +
        (if b then
            (BonusTypes.all.map (fun t => ((s.bonus_coins t).map BonusCoin.value).sum)).sum
          else 0) :=
  calculate_points_spec s b

/-- C5: `count_goods` without `include_all` counts the non-camel goods, and
with `include_all` counts all goods in the hand. -/
theorem hand_count_goods_correct (h : Hand) :
    h.count_goods false
        = (h.goods.filter (fun g => g.good_type != GoodTypes.CAMEL)).length ∧
      h.count_goods true = h.goods.length := by
  constructor
  · rw [Hand.count_goods, count_foldl_eq_filter_length]
    simp
  · rw [Hand.count_goods, count_foldl_eq_filter_length]
    simp

/-- C9: the goods list of a Hand is sorted by good type name after
construction, and stays sorted after every append and every remove. -/
theorem hand_goods_sorted_invariant (l : List Good) (h : Hand) (g : Good) :
    (Hand.init l).goods.Sorted goodLE ∧
      (h.append g).goods.Sorted goodLE ∧
      (h.remove g).goods.Sorted goodLE :=
  ⟨List.sorted_insertionSort goodLE l,
    List.sorted_insertionSort goodLE _,
    List.sorted_insertionSort goodLE _⟩

/-- C10: `add_coin` leaves every bonus-coin count unchanged, and
`add_bonus_coin` increments exactly its own bonus type's count while leaving
the other counts and the payout-only score unchanged. -/
theorem satchel_add_coin_add_bonus_coin_frame (s : Satchel) (c : Coin)
    (bc : BonusCoin) (t : BonusTypes) :
    (s.add_coin c).get_bonus_coin_count t = s.get_bonus_coin_count t ∧
      (s.add_bonus_coin bc).get_bonus_coin_count t
        = s.get_bonus_coin_count t + (if t = bc.bonus_type then 1 else 0) ∧
      (s.add_bonus_coin bc).calculate_points false = s.calculate_points false := by
  refine ⟨rfl, ?_, rfl⟩
  by_cases hc : t = bc.bonus_type <;>
    simp [Satchel.add_bonus_coin, Satchel.get_bonus_coin_count, hc]

/-- C6: appending a good and then removing it restores the hand's canonical
type-name-sorted goods list (stated for hands whose goods list is in the
canonical sorted form, which `Hand.__init__` establishes and, by the
sortedness invariant, every operation preserves). -/
theorem hand_append_remove_roundtrip (h : Hand) (x : Good)
    (hs : h.goods.Sorted goodLE) : (h.append x).remove x = h := by
  have hperm2 : List.Perm ((sortGoods (h.goods ++ [x])).erase x) ((h.goods ++ [x]).erase x) :=
    (List.perm_insertionSort goodLE _).erase x
  have hperm3 : List.Perm ((h.goods ++ [x]).erase x) h.goods := by
    have hsw : List.Perm ((h.goods ++ [x]).erase x) ((x :: h.goods).erase x) :=
      (List.perm_append_singleton x h.goods).erase x
    rw [List.erase_cons_head] at hsw
    exact hsw
  have hperm4 : List.Perm (sortGoods ((sortGoods (h.goods ++ [x])).erase x)) h.goods :=
    ((List.perm_insertionSort goodLE _).trans hperm2).trans hperm3
  have hsorted4 : (sortGoods ((sortGoods (h.goods ++ [x])).erase x)).Sorted goodLE :=
    List.sorted_insertionSort goodLE _
  have hgoods : sortGoods ((sortGoods (h.goods ++ [x])).erase x) = h.goods :=
    List.eq_of_perm_of_sorted hperm4 hsorted4 hs
  exact congrArg Hand.mk hgoods

/-- Witness for C6: a hand holding one leather good, round-tripped with a
diamond good. -/
theorem hand_append_remove_roundtrip_witness :
    (Hand.init [⟨GoodTypes.LEATHER⟩]).goods.Sorted goodLE ∧
      ((Hand.init [⟨GoodTypes.LEATHER⟩]).append ⟨GoodTypes.DIAMOND⟩).remove ⟨GoodTypes.DIAMOND⟩
        = Hand.init [⟨GoodTypes.LEATHER⟩] :=
  ⟨by decide, hand_append_remove_roundtrip _ _ (by decide)⟩

/-- C7: `Trader.get_all_actions` is exactly the concatenation of the Take,
Trade, Sell and Herd generators' action lists, in that order, and each of
the four segments contains only actions of its own kind. -/
theorem trader_get_all_actions_partition (hand : Hand) (mo : MarketObservation) :
    Trader.get_all_actions hand mo =
        Take.get_all_actions hand mo ++ Trade.get_all_actions hand mo
          ++ Sell.get_all_actions hand mo ++ Herd.get_all_actions hand mo ∧
      (∀ a ∈ Take.get_all_actions hand mo, a.kind = ActionKind.take) ∧
      (∀ a ∈ Trade.get_all_actions hand mo, a.kind = ActionKind.trade) ∧
      (∀ a ∈ Sell.get_all_actions hand mo, a.kind = ActionKind.sell) ∧
      (∀ a ∈ Herd.get_all_actions hand mo, a.kind = ActionKind.herd) := by
  refine ⟨rfl, ?_, ?_, ?_, ?_⟩
  · intro a ha
    rw [Take.get_all_actions] at ha
    split at ha
    · rcases List.mem_map.mp ha with ⟨t, _, rfl⟩
      rfl
    · cases ha
  · intro a ha
    rcases List.mem_flatMap.mp ha with ⟨offered, _, hmem⟩
    rcases List.mem_map.mp hmem with ⟨desired, _, rfl⟩
    rfl
  · intro a ha
    rcases List.mem_flatMap.mp ha with ⟨t, _, hmem⟩
    rcases List.mem_map.mp hmem with ⟨i, _, rfl⟩
    rfl
  · intro a ha
    rw [Herd.get_all_actions] at ha
    split at ha
    · rw [List.mem_singleton.mp ha]
      rfl
    · cases ha

/-- C8: whenever the legal-action list is non-empty, the default
`Trader.select_action` returns one of its elements, whatever the rng draw. -/
theorem trader_select_action_mem (r : Nat) (hand : Hand) (mo : MarketObservation)
    (hne : Trader.get_all_actions hand mo ≠ []) :
    ∃ a, Trader.select_action r hand mo = some a ∧
      a ∈ Trader.get_all_actions hand mo := by
  have hpos : 0 < (Trader.get_all_actions hand mo).length :=
    List.length_pos.mpr hne
  have hlt : r % (Trader.get_all_actions hand mo).length
      < (Trader.get_all_actions hand mo).length :=
    Nat.mod_lt _ hpos
  refine ⟨(Trader.get_all_actions hand mo)[r % (Trader.get_all_actions hand mo).length], ?_, ?_⟩
  · exact List.getElem?_eq_getElem hlt
  · exact List.getElem_mem hlt

/-- Witness for C8: an empty hand facing a market that holds one camel, where
the only legal action is the herd action. -/
theorem trader_select_action_mem_witness :
    Trader.get_all_actions (Hand.init []) ⟨[⟨GoodTypes.CAMEL⟩], 7⟩ ≠ [] ∧
      ∃ a, Trader.select_action 0 (Hand.init []) ⟨[⟨GoodTypes.CAMEL⟩], 7⟩ = some a ∧
        a ∈ Trader.get_all_actions (Hand.init []) ⟨[⟨GoodTypes.CAMEL⟩], 7⟩ :=
  ⟨by decide, trader_select_action_mem 0 _ _ (by decide)⟩
